import Mathlib

/-!
Shallow embedding of the PBFT replica core:
the per-sequence consensus state machine (package `consensus`, file holding
`State`, `CreateState`, `StartConsensus`, `PrePrepare`, `Prepare`, `Commit`,
`verifyMsg`, `prepared`, `committed`) and the node-level message router,
execution pipeline and checkpoint engine (`pbft/network/node.go`).

Go maps are embedded as association lists with replace-on-insert semantics;
Go `int32`/`int64` counters and identifiers are embedded as `Nat`/`Int`
(the vote totals only ever grow by one per delivered network message, far
from the `int32` range). Side effects that touch no consensus state
(printing, channel sends, outbound broadcast) are dropped.
-/

namespace PBFT

/-- Association-list lookup, the embedding of Go `m[k]` (with `Option` for
the `nil` zero value). -/
def alistGet {α β : Type} [DecidableEq α] : List (α × β) → α → Option β
  | [], _ => none
  | (a, b) :: t, k => if a = k then some b else alistGet t k

/-- Association-list insert with replacement, the embedding of Go
`m[k] = v`. -/
def alistInsert {α β : Type} [DecidableEq α] : List (α × β) → α → β → List (α × β)
  | [], k, v => [(k, v)]
  | (a, b) :: t, k, v => if a = k then (k, v) :: t else (a, b) :: alistInsert t k v

/-- Association-list key removal, the embedding of Go `delete(m, k)`. -/
def alistErase {α β : Type} [DecidableEq α] : List (α × β) → α → List (α × β)
  | [], _ => []
  | (a, b) :: t, k => if a = k then t else (a, b) :: alistErase t k

/-- Keys of an association list. -/
def alistKeys {α β : Type} (l : List (α × β)) : List α := l.map (fun p => p.1)

deriving instance DecidableEq for Except

/-- Modelled from the spec: the consensus message kinds of `VoteMsg.MsgType`
(the Go type declaration lives in a messages file not under `src/`; only the
constructors `PrepareMsg` and `CommitMsg` are used by the code). -/
inductive MsgType
  | PrepareMsg
  | CommitMsg
  deriving DecidableEq, Repr

/-- Modelled from the spec: the `Stage` type of the instance state machine
(spec section 3: `stage in IDLE, PRE_PREPARED, PREPARED, COMMITTED`); the Go
declaration is in a file not under `src/`, but all four constructors are used
by the code in `src/`. -/
inductive Stage
  | Idle
  | PrePrepared
  | Prepared
  | Committed
  deriving DecidableEq, Repr

/-- Modelled from the spec: `RequestMsg` fields (spec section 3); the Go
struct declaration is in a messages file not under `src/`, but the fields
`ClientID`, `Timestamp`, `Operation`, `Data` and `SequenceID` are all read or
written by the code in `src/`. -/
structure RequestMsg where
  clientID : String
  timestamp : Int
  operation : String
  data : String
  sequenceID : Int
  deriving DecidableEq, Repr

/-- Modelled from the spec: `PrePrepareMsg` fields
`{viewID, sequenceID, digest(request), request}` (spec section 3). -/
structure PrePrepareMsg where
  viewID : Int
  sequenceID : Int
  digest : String
  requestMsg : RequestMsg
  deriving DecidableEq, Repr

/-- Modelled from the spec: `VoteMsg` fields
`{viewID, sequenceID, digest, nodeID, kind}` (spec section 3). -/
structure VoteMsg where
  viewID : Int
  sequenceID : Int
  digest : String
  nodeID : String
  msgType : MsgType
  deriving DecidableEq, Repr

/-- Modelled from the spec: `ReplyMsg` fields
`{viewID, timestamp, clientID, nodeID, result}` (spec section 3). -/
structure ReplyMsg where
  viewID : Int
  timestamp : Int
  clientID : String
  nodeID : String
  result : String
  deriving DecidableEq, Repr

/-- Modelled from the spec: `CheckPointMsg` fields
`{sequenceID, digest, nodeID}` (spec section 3). -/
structure CheckPointMsg where
  sequenceID : Int
  digest : String
  nodeID : String
  deriving DecidableEq, Repr

/-- Modelled from the spec: the digest oracle (`Hash` over the canonical
JSON serialization; `Hash` and the codec are external collaborators not under
`src/`, treated as a collision-resistant — here injective — encoding of the
request fields). A `nil` request pointer serializes to `null`. -/
def digestD : Option RequestMsg → String
  | none => "null"
  | some r =>
      "req:" ++ r.clientID ++ "|" ++ toString r.timestamp ++ "|" ++ r.operation
        ++ "|" ++ r.data ++ "|" ++ toString r.sequenceID

/-- The per-sequence instance state (`consensus.State` together with its
`MsgLogs`; mutexes guard concurrent access in Go and have no sequential
content). `PrepareMsgs` maps nodeID to a possibly-`nil` vote pointer because
`CreateState` seeds the primary with a `nil` pseudo-vote. -/
structure State where
  viewID : Int
  reqMsg : Option RequestMsg
  prepareMsgs : List (String × Option VoteMsg)
  commitMsgs : List (String × VoteMsg)
  totalPrepareMsg : Nat
  totalCommitMsg : Nat
  sequenceID : Int
  currentStage : Stage
  f : Nat
  deriving DecidableEq, Repr

/-- `consensus.CreateState`: fresh state with the primary's PREPARE seeded as
a `nil` map entry and counted once in `TotalPrepareMsg`. -/
def CreateState (viewID : Int) (totNodes : Nat) (primaryID : String) : State :=
  { viewID := viewID
    reqMsg := none
    prepareMsgs := [(primaryID, none)]
    commitMsgs := []
    totalPrepareMsg := 1
    totalCommitMsg := 0
    sequenceID := 0
    currentStage := Stage.Idle
    f := (totNodes - 1) / 3 }

/-- `consensus.State.verifyMsg`: checks view, sequence number, and the digest
of the currently stored request, in that order; `none` means success. -/
def State.verifyMsg (state : State) (viewID : Int) (sequenceID : Int)
    (digestGot : String) : Option String :=
  if state.viewID ≠ viewID then
    some "view mismatch"
  else if state.sequenceID ≠ sequenceID then
    some "sequence mismatch"
  else if digestGot ≠ digestD state.reqMsg then
    some "digest mismatch"
  else
    none

/-- `consensus.State.prepared`: a stored request plus at least `2f` counted
PREPAREs (the seeded primary pseudo-vote included). -/
def State.prepared (state : State) : Bool :=
  state.reqMsg.isSome && decide (2 * state.f ≤ state.totalPrepareMsg)

/-- `consensus.State.committed`: prepared plus at least `2f` counted
COMMITs. -/
def State.committed (state : State) : Bool :=
  state.prepared && decide (2 * state.f ≤ state.totalCommitMsg)

/-- `consensus.State.StartConsensus`: assigns the sequence number to the
request, stores it, moves to `PrePrepared` and returns the PRE-PREPARE
message. The Go error path exists only for a digest-marshalling failure,
which the total digest model cannot produce. -/
def State.StartConsensus (state : State) (request : RequestMsg)
    (sequenceID : Int) : State × PrePrepareMsg :=
  let request1 := { request with sequenceID := sequenceID }
  let state1 := { state with
    sequenceID := sequenceID
    reqMsg := some request1
    currentStage := Stage.PrePrepared }
  (state1,
   { viewID := state.viewID
     sequenceID := request1.sequenceID
     digest := digestD (some request1)
     requestMsg := request1 })

/-- `consensus.State.PrePrepare`: stores the carried request and sequence
number first, then verifies (view, sequence, digest); on success moves to
`PrePrepared` and returns the PREPARE vote (its `NodeID` is filled in later
by the node layer). -/
def State.PrePrepare (state : State) (prePrepareMsg : PrePrepareMsg) :
    State × Except String VoteMsg :=
  let state1 := { state with
    reqMsg := some prePrepareMsg.requestMsg
    sequenceID := prePrepareMsg.sequenceID }
  match state1.verifyMsg prePrepareMsg.viewID prePrepareMsg.sequenceID
      prePrepareMsg.digest with
  | some err => (state1, Except.error ("pre-prepare message is corrupted: " ++ err))
  | none =>
      ({ state1 with currentStage := Stage.PrePrepared },
       Except.ok
         { viewID := state1.viewID
           sequenceID := prePrepareMsg.sequenceID
           digest := prePrepareMsg.digest
           nodeID := ""
           msgType := MsgType.PrepareMsg })

/-- `consensus.State.Prepare`: verifies, records the vote under its nodeID
(replacing any prior entry), increments the counted total unconditionally,
and emits the COMMIT vote exactly when the new total does not exceed `2f` and
the prepared predicate holds. -/
def State.Prepare (state : State) (prepareMsg : VoteMsg) :
    State × Except String (Option VoteMsg) :=
  match state.verifyMsg prepareMsg.viewID prepareMsg.sequenceID
      prepareMsg.digest with
  | some err => (state, Except.error ("prepare message is corrupted: " ++ err))
  | none =>
      let state1 := { state with
        prepareMsgs := alistInsert state.prepareMsgs prepareMsg.nodeID (some prepareMsg)
        totalPrepareMsg := state.totalPrepareMsg + 1 }
      if 2 * state1.f < state1.totalPrepareMsg then
        (state1, Except.ok none)
      else if state1.prepared then
        ({ state1 with currentStage := Stage.Prepared },
         Except.ok (some
           { viewID := state1.viewID
             sequenceID := prepareMsg.sequenceID
             digest := prepareMsg.digest
             nodeID := ""
             msgType := MsgType.CommitMsg }))
      else
        (state1, Except.ok none)

/-- `consensus.State.Commit`: requires the prepared predicate, verifies,
records the vote (replacing any prior entry from the same nodeID),
increments the counted total unconditionally, and emits the reply paired
with the committed request exactly when the new total does not exceed `2f`
and the committed predicate holds. -/
def State.Commit (state : State) (commitMsg : VoteMsg) :
    State × Except String (Option (ReplyMsg × RequestMsg)) :=
  if !state.prepared then
    (state, Except.error "The stage is not prepared")
  else
    match state.verifyMsg commitMsg.viewID commitMsg.sequenceID
        commitMsg.digest with
    | some err => (state, Except.error ("commit message is corrupted: " ++ err))
    | none =>
        let state1 := { state with
          commitMsgs := alistInsert state.commitMsgs commitMsg.nodeID commitMsg
          totalCommitMsg := state.totalCommitMsg + 1 }
        if 2 * state1.f < state1.totalCommitMsg then
          (state1, Except.ok none)
        else if state1.committed then
          match state1.reqMsg with
          | some req =>
              ({ state1 with currentStage := Stage.Committed },
               Except.ok (some
                 ({ viewID := state1.viewID
                    timestamp := req.timestamp
                    clientID := req.clientID
                    nodeID := ""
                    result := "" }, req)))
          | none =>
              -- Unreachable: the committed predicate requires a stored request.
              (state1, Except.ok none)
        else
          (state1, Except.ok none)

/-- `network.MsgPair`: a reply paired with its committed request, handed to
the executor. -/
structure MsgPair where
  replyMsg : ReplyMsg
  committedMsg : RequestMsg
  deriving DecidableEq, Repr

/-- Default request, the out-of-bounds value for `List.getD` indexing. -/
def reqDefault : RequestMsg :=
  { clientID := "", timestamp := 0, operation := "", data := "", sequenceID := 0 }

/-- The `lastSequenceID` computation of `Node.executeMsg`: the sequence
number of the last entry of `node.CommittedMsgs`, or `0` when the log is
empty. -/
def lastSequenceID (committedLog : List RequestMsg) : Int :=
  if 0 < committedLog.length then
    (committedLog.getD (committedLog.length - 1) reqDefault).sequenceID
  else
    0

/-- The inner `for` loop of `Node.executeMsg`: while the pair for
`lastSequenceID + 1` is buffered, append its request to the committed log and
delete it from the buffer. The loop deletes one buffered key per iteration,
so any fuel of at least `pairs.length` reproduces the Go loop exactly; the
reply broadcast and the checkpoint trigger touch neither the committed log
nor the buffer and are dropped. -/
def executeLoop : Nat → List RequestMsg → List (Int × MsgPair) →
    List RequestMsg × List (Int × MsgPair)
  | 0, committedLog, pairs => (committedLog, pairs)
  | fuel + 1, committedLog, pairs =>
      match alistGet pairs (lastSequenceID committedLog + 1) with
      | none => (committedLog, pairs)
      | some p =>
          executeLoop fuel (committedLog ++ [p.committedMsg])
            (alistErase pairs (lastSequenceID committedLog + 1))

/-- One turn of the `Node.executeMsg` executor task: buffer the arriving
pair under its request's sequence number, then run the execution loop. -/
def executeMsgStep (committedLog : List RequestMsg)
    (pairs : List (Int × MsgPair)) (msgPair : MsgPair) :
    List RequestMsg × List (Int × MsgPair) :=
  let pairs1 := alistInsert pairs msgPair.committedMsg.sequenceID msgPair
  executeLoop (pairs1.length + 1) committedLog pairs1

/-- Modelled from the spec: the consensus `State` version referenced by
`node.go` carries the extra fields `F` and `CheckPointState` (spec section 3
instance fields `f` and `checkpointState`); its defining file is not under
`src/`, and only these two fields are read by the checkpoint operations. -/
structure InstanceEntry where
  F : Nat
  checkPointState : Int
  deriving DecidableEq, Repr

/-- The node state relevant to the message router and the checkpoint engine
(`network.Node`: `MyInfo.NodeID`, `View.Primary.NodeID`, `States`,
`CheckPointMsgsLog`, `StableCheckPoint`). -/
structure Node where
  myNodeID : String
  primaryID : String
  states : List (Int × InstanceEntry)
  checkPointMsgsLog : List (Int × List (String × CheckPointMsg))
  stableCheckPoint : Int
  deriving DecidableEq, Repr

/-- `network.periodCheckPoint`. -/
def periodCheckPoint : Int := 5

/-- `Node.isMyNodePrimary`. -/
def Node.isMyNodePrimary (node : Node) : Bool :=
  node.myNodeID = node.primaryID

/-- The tagged sum of inbound message kinds dispatched by `Node.routeMsg`
(the Go code discriminates on the runtime type of an `interface` channel;
view-change and new-view payloads are irrelevant to routing). -/
inductive InMsg
  | request (m : RequestMsg)
  | prePrepare (m : PrePrepareMsg)
  | vote (m : VoteMsg)
  | reply (m : ReplyMsg)
  | checkpoint (m : CheckPointMsg)
  | viewChange
  | newView
  deriving DecidableEq, Repr

/-- `Node.routeMsg`: `some` means the message is forwarded to `MsgDelivery`,
`none` means it is dropped. PRE-PREPAREs are dropped on the primary; vote
messages (PREPARE and COMMIT alike) are dropped when they carry the local
node's own ID; everything else is forwarded. -/
def Node.routeMsg (node : Node) (msg : InMsg) : Option InMsg :=
  match msg with
  | InMsg.request m => some (InMsg.request m)
  | InMsg.prePrepare m =>
      if node.isMyNodePrimary then none else some (InMsg.prePrepare m)
  | InMsg.vote m =>
      if node.myNodeID ≠ m.nodeID then some (InMsg.vote m) else none
  | InMsg.reply m => some (InMsg.reply m)
  | InMsg.checkpoint m => some (InMsg.checkpoint m)
  | InMsg.viewChange => some InMsg.viewChange
  | InMsg.newView => some InMsg.newView

/-- `Node.Checkpointchk`: true when an instance exists for the sequence
number, the checkpoint log for it holds at least `2F + 1` messages, and the
local node's own checkpoint is among them. Digests are never compared. -/
def Node.Checkpointchk (node : Node) (sequenceID : Int) : Bool :=
  match alistGet node.states sequenceID with
  | none => false
  | some st =>
      let ckLog := (alistGet node.checkPointMsgsLog sequenceID).getD []
      decide (2 * st.F + 1 ≤ ckLog.length) &&
        (alistGet ckLog node.myNodeID).isSome

/-- The first half of `Node.CheckPoint`: record the message under
`CheckPointMsgsLog[seq][nodeID]` (creating the inner map when absent). -/
def Node.recordCkpt (node : Node) (msg : CheckPointMsg) : Node :=
  let ckLog := (alistGet node.checkPointMsgsLog msg.sequenceID).getD []
  { node with
    checkPointMsgsLog :=
      alistInsert node.checkPointMsgsLog msg.sequenceID
        (alistInsert ckLog msg.nodeID msg) }

/-- The guard of the stabilization branch of `Node.CheckPoint`:
`Checkpointchk` and `States[seq].CheckPointState == 0` (the short-circuit of
the Go conjunction guarantees the instance exists before the field read). -/
def Node.ckptFires (node : Node) (msg : CheckPointMsg) : Bool :=
  node.Checkpointchk msg.sequenceID &&
    (match alistGet node.states msg.sequenceID with
     | some st => decide (st.checkPointState = 0)
     | none => false)

/-- `Node.CheckPoint`: record the message; if the stabilization guard fires,
mark the instance checkpointed, delete every checkpoint-log key and every
instance-registry key strictly below `StableCheckPoint + periodCheckPoint`,
and raise `StableCheckPoint` by `periodCheckPoint`. The history print on a
full log is output-only and dropped. -/
def Node.CheckPoint (node : Node) (msg : CheckPointMsg) : Node :=
  let node1 := node.recordCkpt msg
  if node1.ckptFires msg then
    let fStableCheckPoint := node1.stableCheckPoint + periodCheckPoint
    let states1 := node1.states.map (fun p =>
      if p.1 = msg.sequenceID then (p.1, { p.2 with checkPointState := 1 }) else p)
    { node1 with
      checkPointMsgsLog :=
        node1.checkPointMsgsLog.filter (fun p => !decide (p.1 < fStableCheckPoint))
      states := states1.filter (fun p => !decide (p.1 < fStableCheckPoint))
      stableCheckPoint := fStableCheckPoint }
  else
    node1

/-! Concrete instances used by counterexamples and witnesses. A cluster with
`totNodes = 4` gives `f = 1`, the smallest non-degenerate PBFT setting. -/

/-- Concrete request (sequence number 1). -/
def reqX : RequestMsg :=
  { clientID := "client", timestamp := 1, operation := "opx", data := "dx", sequenceID := 1 }

/-- Concrete request differing from `reqX` (a conflicting proposal). -/
def reqY : RequestMsg :=
  { clientID := "client", timestamp := 1, operation := "opy", data := "dy", sequenceID := 1 }

/-- PREPARE vote from backup `b1` matching `reqX`. -/
def votePrepB1 : VoteMsg :=
  { viewID := 0, sequenceID := 1, digest := digestD (some reqX)
    nodeID := "b1", msgType := MsgType.PrepareMsg }

/-- COMMIT vote from backup `b1` matching `reqX`. -/
def voteCommB1 : VoteMsg :=
  { viewID := 0, sequenceID := 1, digest := digestD (some reqX)
    nodeID := "b1", msgType := MsgType.CommitMsg }

/-- COMMIT vote from backup `b2` matching `reqX`. -/
def voteCommB2 : VoteMsg :=
  { viewID := 0, sequenceID := 1, digest := digestD (some reqX)
    nodeID := "b2", msgType := MsgType.CommitMsg }

/-- Fresh state of a 4-node cluster with primary `p` (so `f = 1`). -/
def stateEx0 : State := CreateState 0 4 "p"

/-- `stateEx0` after the primary starts consensus on `reqX` at sequence 1. -/
def stateEx1 : State := (stateEx0.StartConsensus reqX 1).1

/-- A state that has just reached the `Prepared` stage: request stored,
primary seed plus `b1`'s PREPARE counted (`2f = 2`). -/
def statePrepared : State :=
  { viewID := 0
    reqMsg := some reqX
    prepareMsgs := [("p", none), ("b1", some votePrepB1)]
    commitMsgs := []
    totalPrepareMsg := 2
    totalCommitMsg := 0
    sequenceID := 1
    currentStage := Stage.Prepared
    f := 1 }

/-- `statePrepared` with one COMMIT vote already recorded. -/
def stateOneCommit : State :=
  { statePrepared with commitMsgs := [("b1", voteCommB1)], totalCommitMsg := 1 }

/-- PRE-PREPARE for `reqX` at view 0, sequence 1. -/
def ppX : PrePrepareMsg :=
  { viewID := 0, sequenceID := 1, digest := digestD (some reqX), requestMsg := reqX }

/-- PRE-PREPARE for the conflicting request `reqY` at the same view and
sequence, carrying `reqY`'s own (different) digest. -/
def ppY : PrePrepareMsg :=
  { viewID := 0, sequenceID := 1, digest := digestD (some reqY), requestMsg := reqY }

/-- PRE-PREPARE for `reqX` but with a mismatching view (view 7). -/
def ppBadView : PrePrepareMsg :=
  { viewID := 7, sequenceID := 1, digest := digestD (some reqX), requestMsg := reqX }

/-- PRE-PREPARE carrying the conflicting request `reqY` with a mismatching
view: it fails verification yet still overwrites the stored request. -/
def ppYBadView : PrePrepareMsg :=
  { viewID := 7, sequenceID := 2, digest := digestD (some reqY), requestMsg := reqY }

/-! Derived notions used to state the claims. -/

/-- The committed log is position-indexed: entry `i` carries sequence number
`i + 1` (strictly monotone, gap-free, at most once per sequence number). -/
def orderedLog (committedLog : List RequestMsg) : Prop :=
  ∀ i, i < committedLog.length →
    (committedLog.getD i reqDefault).sequenceID = (i : Int) + 1

/-- Every buffered executor pair is keyed by its own request's sequence
number (the executor inserts pairs under `committedMsg.SequenceID`). -/
def pairsKeyed (pairs : List (Int × MsgPair)) : Prop :=
  ∀ p ∈ pairs, p.2.committedMsg.sequenceID = p.1

/-- All checkpoint messages of one per-sequence log carry the same digest
(the spec side of claim C6; the code never checks this). -/
def digestsMatch (ckLog : List (String × CheckPointMsg)) : Bool :=
  match ckLog with
  | [] => true
  | (_, m) :: rest => rest.all (fun p => p.2.digest == m.digest)

/-- Post-state of a `Prepare` call (the error path returns the input state
unchanged). -/
def prepApply (s : State) (m : VoteMsg) : State := (s.Prepare m).1

/-- Whether a `Prepare` call emitted the COMMIT message. -/
def prepEmitted (s : State) (m : VoteMsg) : Bool :=
  match (s.Prepare m).2 with
  | Except.ok (some _) => true
  | _ => false

/-- Post-state of a `Commit` call. -/
def commApply (s : State) (m : VoteMsg) : State := (s.Commit m).1

/-- Whether a `Commit` call emitted the reply. -/
def commEmitted (s : State) (m : VoteMsg) : Bool :=
  match (s.Commit m).2 with
  | Except.ok (some _) => true
  | _ => false

/-- Number of COMMIT emissions over a sequence of `Prepare` calls. -/
def prepEmitCount : State → List VoteMsg → Nat
  | _, [] => 0
  | s, m :: rest =>
      (if prepEmitted s m then 1 else 0) + prepEmitCount (prepApply s m) rest

/-- A vote-processing call on an instance: either a `Prepare` or a
`Commit`. -/
inductive ConsOp
  | prep (m : VoteMsg)
  | comm (m : VoteMsg)
  deriving DecidableEq, Repr

/-- Post-state of one vote-processing call. -/
def applyOp (s : State) : ConsOp → State
  | ConsOp.prep m => prepApply s m
  | ConsOp.comm m => commApply s m

/-- Whether the call emitted the COMMIT message (only `Prepare` can). -/
def opPrepEmitted (s : State) : ConsOp → Bool
  | ConsOp.prep m => prepEmitted s m
  | ConsOp.comm _ => false

/-- Whether the call emitted the reply (only `Commit` can). -/
def opCommEmitted (s : State) : ConsOp → Bool
  | ConsOp.prep _ => false
  | ConsOp.comm m => commEmitted s m

/-- Final state after a sequence of vote-processing calls. -/
def runOps : State → List ConsOp → State
  | s, [] => s
  | s, o :: rest => runOps (applyOp s o) rest

/-- Number of COMMIT emissions over a sequence of vote-processing calls. -/
def runPrepEmitCount : State → List ConsOp → Nat
  | _, [] => 0
  | s, o :: rest =>
      (if opPrepEmitted s o then 1 else 0) + runPrepEmitCount (applyOp s o) rest

/-- Number of reply emissions over a sequence of vote-processing calls. -/
def runCommEmitCount : State → List ConsOp → Nat
  | _, [] => 0
  | s, o :: rest =>
      (if opCommEmitted s o then 1 else 0) + runCommEmitCount (applyOp s o) rest

/-- Numeric height of a stage, for monotonicity statements. -/
def stageRank : Stage → Nat
  | Stage.Idle => 0
  | Stage.PrePrepared => 1
  | Stage.Prepared => 2
  | Stage.Committed => 3

/-- Stage/total consistency: a state at stage `Prepared` or `Committed`
has at least `2f` counted PREPAREs. Every state reachable by the operations
satisfies it (`Prepare` sets `Prepared` only when the prepared predicate
holds, and `Commit` sets `Committed` only when the committed predicate
holds). -/
def stageInv (s : State) : Prop :=
  (s.currentStage = Stage.Prepared ∨ s.currentStage = Stage.Committed) →
    2 * s.f ≤ s.totalPrepareMsg

/-! Concrete node-level fixtures. -/

/-- Reply paired with `reqX`, as handed to the executor. -/
def mpX : MsgPair :=
  { replyMsg := { viewID := 0, timestamp := 1, clientID := "client", nodeID := "", result := "" }
    committedMsg := reqX }

/-- Checkpoint messages for sequence 5 from three distinct nodes with three
distinct digests. -/
def ckA : CheckPointMsg := { sequenceID := 5, digest := "d1", nodeID := "A" }

/-- Checkpoint for sequence 5 from node `B`, digest `d2`. -/
def ckB : CheckPointMsg := { sequenceID := 5, digest := "d2", nodeID := "B" }

/-- Checkpoint for sequence 5 from node `C`, digest `d3`. -/
def ckC : CheckPointMsg := { sequenceID := 5, digest := "d3", nodeID := "C" }

/-- Node (`f = 1` instance) whose checkpoint log for sequence 5 holds three
messages with pairwise different digests, the local node's own among them. -/
def nodeMismatch : Node :=
  { myNodeID := "A"
    primaryID := "p"
    states := [(5, { F := 1, checkPointState := 0 })]
    checkPointMsgsLog := [(5, [("A", ckA), ("B", ckB), ("C", ckC)])]
    stableCheckPoint := 0 }

/-- Node holding instances at sequences 10 and 3 with stable checkpoint 0,
about to stabilize a checkpoint at sequence 10. -/
def nodeTen : Node :=
  { myNodeID := "A"
    primaryID := "p"
    states := [(10, { F := 0, checkPointState := 0 }), (3, { F := 0, checkPointState := 0 })]
    checkPointMsgsLog := [(3, [("B", { sequenceID := 3, digest := "d", nodeID := "B" })])]
    stableCheckPoint := 0 }

/-- The local node's own checkpoint message for sequence 10. -/
def ckTen : CheckPointMsg := { sequenceID := 10, digest := "d", nodeID := "A" }

/-- Node with a single instance at sequence 5, used as checkpoint witness. -/
def nodeFive : Node :=
  { myNodeID := "A"
    primaryID := "p"
    states := [(5, { F := 0, checkPointState := 0 })]
    checkPointMsgsLog := []
    stableCheckPoint := 0 }

/-- The local node's own checkpoint message for sequence 5. -/
def ckFive : CheckPointMsg := { sequenceID := 5, digest := "d", nodeID := "A" }

/-- Router fixture: a non-primary node with ID `A`. -/
def nodeRouter : Node :=
  { myNodeID := "A", primaryID := "B", states := [], checkPointMsgsLog := [], stableCheckPoint := 0 }

/-- The router node's own COMMIT vote. -/
def ownCommitVote : VoteMsg :=
  { viewID := 0, sequenceID := 1, digest := "d", nodeID := "A", msgType := MsgType.CommitMsg }

/-- Reply template produced when `reqX` commits at view 0. -/
def replyX : ReplyMsg :=
  { viewID := 0, timestamp := 1, clientID := "client", nodeID := "", result := "" }

/-- PREPARE vote returned by a successful `PrePrepare` of `ppX` (nodeID is
filled in later by the node layer). -/
def prepVoteOutX : VoteMsg :=
  { viewID := 0, sequenceID := 1, digest := digestD (some reqX)
    nodeID := "", msgType := MsgType.PrepareMsg }

/-- PREPARE vote returned by a successful `PrePrepare` of `ppY`. -/
def prepVoteOutY : VoteMsg :=
  { viewID := 0, sequenceID := 1, digest := digestD (some reqY)
    nodeID := "", msgType := MsgType.PrepareMsg }

/-- Vote matching `reqX` but carrying a mismatching view (view 7), so that
verification fails. -/
def voteBadView : VoteMsg :=
  { viewID := 7, sequenceID := 1, digest := digestD (some reqX)
    nodeID := "b1", msgType := MsgType.PrepareMsg }

/-! Helper lemmas about the vote-processing operations. -/

theorem Prepare_error_of_verify {s : State} {m : VoteMsg} {e : String}
    (h : s.verifyMsg m.viewID m.sequenceID m.digest = some e) :
    s.Prepare m = (s, Except.error ("prepare message is corrupted: " ++ e)) := by
  simp [State.Prepare, h]

theorem Prepare_ok_of_verify {s : State} {m : VoteMsg}
    (h : s.verifyMsg m.viewID m.sequenceID m.digest = none) :
    ∃ r, (s.Prepare m).2 = Except.ok r := by
  simp only [State.Prepare, h]
  split
  · exact ⟨none, rfl⟩
  · split
    · exact ⟨_, rfl⟩
    · exact ⟨none, rfl⟩

theorem prepApply_f (s : State) (m : VoteMsg) : (prepApply s m).f = s.f := by
  unfold prepApply State.Prepare
  cases h : s.verifyMsg m.viewID m.sequenceID m.digest with
  | some e => simp
  | none =>
      simp only []
      split
      · rfl
      · split <;> rfl

theorem prepApply_total (s : State) (m : VoteMsg) :
    (prepApply s m).totalPrepareMsg = s.totalPrepareMsg ∨
      (prepApply s m).totalPrepareMsg = s.totalPrepareMsg + 1 := by
  unfold prepApply State.Prepare
  cases h : s.verifyMsg m.viewID m.sequenceID m.digest with
  | some e => left; rfl
  | none =>
      right
      simp only []
      split
      · rfl
      · split <;> rfl

theorem prepApply_commTotal (s : State) (m : VoteMsg) :
    (prepApply s m).totalCommitMsg = s.totalCommitMsg := by
  unfold prepApply State.Prepare
  cases h : s.verifyMsg m.viewID m.sequenceID m.digest with
  | some e => rfl
  | none =>
      simp only []
      split
      · rfl
      · split <;> rfl

theorem prepEmitted_iff (s : State) (m : VoteMsg) :
    prepEmitted s m = true ↔ ∃ v, (s.Prepare m).2 = Except.ok (some v) := by
  unfold prepEmitted
  cases h : (s.Prepare m).2 with
  | ok r => cases r <;> simp
  | error e => simp

theorem Prepare_emit_char {s : State} {m : VoteMsg} {v : VoteMsg}
    (h : (s.Prepare m).2 = Except.ok (some v)) :
    (s.Prepare m).1.totalPrepareMsg = 2 * s.f ∧
      (s.Prepare m).1.totalPrepareMsg = s.totalPrepareMsg + 1 ∧
      (s.Prepare m).1.currentStage = Stage.Prepared := by
  unfold State.Prepare at h ⊢
  cases hv : s.verifyMsg m.viewID m.sequenceID m.digest with
  | some e => rw [hv] at h; simp at h
  | none =>
      rw [hv] at h
      dsimp only [] at h ⊢
      split at h
      · simp at h
      · rename_i hgt
        split at h
        · rename_i hp
          rw [if_neg hgt, if_pos hp]
          refine ⟨?_, rfl, rfl⟩
          simp only [not_lt] at hgt
          have h2f : 2 * s.f ≤ s.totalPrepareMsg + 1 := by
            unfold State.prepared at hp
            simp only [Bool.and_eq_true, decide_eq_true_eq] at hp
            exact hp.2
          simp only []
          omega
        · simp at h

theorem prepEmitted_total {s : State} {m : VoteMsg}
    (h : prepEmitted s m = true) :
    (prepApply s m).totalPrepareMsg = 2 * s.f ∧
      (prepApply s m).totalPrepareMsg = s.totalPrepareMsg + 1 := by
  obtain ⟨v, hv⟩ := (prepEmitted_iff s m).mp h
  have := Prepare_emit_char hv
  exact ⟨this.1, this.2.1⟩

theorem prepEmitted_false_of_high {s : State} {m : VoteMsg}
    (h : 2 * s.f ≤ s.totalPrepareMsg) : prepEmitted s m = false := by
  by_contra hc
  have ht : prepEmitted s m = true := by
    cases hb : prepEmitted s m
    · exact absurd hb hc
    · rfl
  obtain ⟨v, hv⟩ := (prepEmitted_iff s m).mp ht
  obtain ⟨h1, h2, _⟩ := Prepare_emit_char hv
  omega

theorem Commit_error_of_unprepared {s : State} {m : VoteMsg}
    (h : s.prepared = false) :
    s.Commit m = (s, Except.error "The stage is not prepared") := by
  simp [State.Commit, h]

theorem commApply_f (s : State) (m : VoteMsg) : (commApply s m).f = s.f := by
  unfold commApply State.Commit
  by_cases hp : s.prepared
  · simp only [hp, Bool.not_true, Bool.false_eq_true, if_false]
    cases hv : s.verifyMsg m.viewID m.sequenceID m.digest with
    | some e => rfl
    | none =>
        simp only []
        split
        · rfl
        · split
          · split <;> rfl
          · rfl
  · simp only [Bool.not_eq_true] at hp
    simp [hp]

theorem commApply_prepTotal (s : State) (m : VoteMsg) :
    (commApply s m).totalPrepareMsg = s.totalPrepareMsg := by
  unfold commApply State.Commit
  by_cases hp : s.prepared
  · simp only [hp, Bool.not_true, Bool.false_eq_true, if_false]
    cases hv : s.verifyMsg m.viewID m.sequenceID m.digest with
    | some e => rfl
    | none =>
        simp only []
        split
        · rfl
        · split
          · split <;> rfl
          · rfl
  · simp only [Bool.not_eq_true] at hp
    simp [hp]

theorem commApply_total (s : State) (m : VoteMsg) :
    (commApply s m).totalCommitMsg = s.totalCommitMsg ∨
      (commApply s m).totalCommitMsg = s.totalCommitMsg + 1 := by
  unfold commApply State.Commit
  by_cases hp : s.prepared
  · simp only [hp, Bool.not_true, Bool.false_eq_true, if_false]
    cases hv : s.verifyMsg m.viewID m.sequenceID m.digest with
    | some e => left; rfl
    | none =>
        right
        simp only []
        split
        · rfl
        · split
          · split <;> rfl
          · rfl
  · simp only [Bool.not_eq_true] at hp
    simp [hp]

theorem commEmitted_iff (s : State) (m : VoteMsg) :
    commEmitted s m = true ↔
      ∃ pr, (s.Commit m).2 = Except.ok (some pr) := by
  unfold commEmitted
  cases h : (s.Commit m).2 with
  | ok r => cases r <;> simp
  | error e => simp

theorem Commit_emit_char {s : State} {m : VoteMsg}
    {pr : ReplyMsg × RequestMsg}
    (h : (s.Commit m).2 = Except.ok (some pr)) :
    s.prepared = true ∧
      (s.Commit m).1.totalCommitMsg = 2 * s.f ∧
      (s.Commit m).1.totalCommitMsg = s.totalCommitMsg + 1 ∧
      (s.Commit m).1.currentStage = Stage.Committed ∧
      s.reqMsg = some pr.2 := by
  unfold State.Commit at h ⊢
  by_cases hp : s.prepared
  · simp only [hp, Bool.not_true, Bool.false_eq_true, if_false] at h ⊢
    cases hv : s.verifyMsg m.viewID m.sequenceID m.digest with
    | some e => rw [hv] at h; simp at h
    | none =>
        rw [hv] at h
        dsimp only [] at h ⊢
        split at h
        · simp at h
        · rename_i hgt
          simp only [not_lt] at hgt
          split at h
          · rename_i hc
            have h2f : 2 * s.f ≤ s.totalCommitMsg + 1 := by
              unfold State.committed at hc
              simp only [Bool.and_eq_true, decide_eq_true_eq] at hc
              exact hc.2
            split at h
            · rename_i req hreq
              simp only [Except.ok.injEq, Option.some.injEq] at h
              rw [if_neg (show ¬ 2 * s.f < s.totalCommitMsg + 1 by omega),
                if_pos hc, hreq]
              dsimp only []
              refine ⟨trivial, by omega, rfl, rfl, ?_⟩
              rw [← h]
            · simp at h
          · simp at h
  · simp only [Bool.not_eq_true] at hp
    simp [hp] at h

theorem commEmitted_total {s : State} {m : VoteMsg}
    (h : commEmitted s m = true) :
    (commApply s m).totalCommitMsg = 2 * s.f ∧
      (commApply s m).totalCommitMsg = s.totalCommitMsg + 1 := by
  obtain ⟨pr, hpr⟩ := (commEmitted_iff s m).mp h
  have := Commit_emit_char hpr
  exact ⟨this.2.1, this.2.2.1⟩

theorem commEmitted_false_of_high {s : State} {m : VoteMsg}
    (h : 2 * s.f ≤ s.totalCommitMsg) : commEmitted s m = false := by
  by_contra hc
  have ht : commEmitted s m = true := by
    cases hb : commEmitted s m
    · exact absurd hb hc
    · rfl
  obtain ⟨pr, hpr⟩ := (commEmitted_iff s m).mp ht
  obtain ⟨-, h1, h2, -, -⟩ := Commit_emit_char hpr
  omega

theorem applyOp_f (s : State) (o : ConsOp) : (applyOp s o).f = s.f := by
  cases o with
  | prep m => exact prepApply_f s m
  | comm m => exact commApply_f s m

theorem applyOp_prepTotal_mono (s : State) (o : ConsOp) :
    s.totalPrepareMsg ≤ (applyOp s o).totalPrepareMsg := by
  cases o with
  | prep m =>
      rcases prepApply_total s m with h | h <;>
        simp only [applyOp, h] <;> omega
  | comm m =>
      simp only [applyOp, commApply_prepTotal, le_refl]

theorem applyOp_commTotal_mono (s : State) (o : ConsOp) :
    s.totalCommitMsg ≤ (applyOp s o).totalCommitMsg := by
  cases o with
  | prep m =>
      simp only [applyOp, prepApply_commTotal, le_refl]
  | comm m =>
      rcases commApply_total s m with h | h <;>
        simp only [applyOp, h] <;> omega

theorem opPrepEmitted_total {s : State} {o : ConsOp}
    (h : opPrepEmitted s o = true) :
    (applyOp s o).totalPrepareMsg = 2 * s.f := by
  cases o with
  | prep m => exact (prepEmitted_total h).1
  | comm m => simp [opPrepEmitted] at h

theorem opPrepEmitted_false_of_high {s : State} {o : ConsOp}
    (h : 2 * s.f ≤ s.totalPrepareMsg) : opPrepEmitted s o = false := by
  cases o with
  | prep m => exact prepEmitted_false_of_high h
  | comm m => rfl

theorem opCommEmitted_total {s : State} {o : ConsOp}
    (h : opCommEmitted s o = true) :
    (applyOp s o).totalCommitMsg = 2 * s.f := by
  cases o with
  | prep m => simp [opCommEmitted] at h
  | comm m => exact (commEmitted_total h).1

theorem opCommEmitted_false_of_high {s : State} {o : ConsOp}
    (h : 2 * s.f ≤ s.totalCommitMsg) : opCommEmitted s o = false := by
  cases o with
  | prep m => rfl
  | comm m => exact commEmitted_false_of_high h

theorem runPrepEmitCount_zero_of_high :
    ∀ (ops : List ConsOp) (s : State),
      2 * s.f ≤ s.totalPrepareMsg → runPrepEmitCount s ops = 0 := by
  intro ops
  induction ops with
  | nil => intro s _; rfl
  | cons o rest ih =>
      intro s h
      have h0 : opPrepEmitted s o = false := opPrepEmitted_false_of_high h
      have h1 : 2 * (applyOp s o).f ≤ (applyOp s o).totalPrepareMsg := by
        rw [applyOp_f]
        exact le_trans h (applyOp_prepTotal_mono s o)
      simp [runPrepEmitCount, h0, ih _ h1]

theorem runPrepEmitCount_le_one :
    ∀ (ops : List ConsOp) (s : State), runPrepEmitCount s ops ≤ 1 := by
  intro ops
  induction ops with
  | nil => intro s; exact Nat.zero_le 1
  | cons o rest ih =>
      intro s
      by_cases he : opPrepEmitted s o = true
      · have hhigh : 2 * (applyOp s o).f ≤ (applyOp s o).totalPrepareMsg := by
          rw [applyOp_f, opPrepEmitted_total he]
        simp [runPrepEmitCount, he, runPrepEmitCount_zero_of_high rest _ hhigh]
      · simp only [Bool.not_eq_true] at he
        simp [runPrepEmitCount, he, ih _]

theorem runCommEmitCount_zero_of_high :
    ∀ (ops : List ConsOp) (s : State),
      2 * s.f ≤ s.totalCommitMsg → runCommEmitCount s ops = 0 := by
  intro ops
  induction ops with
  | nil => intro s _; rfl
  | cons o rest ih =>
      intro s h
      have h0 : opCommEmitted s o = false := opCommEmitted_false_of_high h
      have h1 : 2 * (applyOp s o).f ≤ (applyOp s o).totalCommitMsg := by
        rw [applyOp_f]
        exact le_trans h (applyOp_commTotal_mono s o)
      simp [runCommEmitCount, h0, ih _ h1]

theorem runCommEmitCount_le_one :
    ∀ (ops : List ConsOp) (s : State), runCommEmitCount s ops ≤ 1 := by
  intro ops
  induction ops with
  | nil => intro s; exact Nat.zero_le 1
  | cons o rest ih =>
      intro s
      by_cases he : opCommEmitted s o = true
      · have hhigh : 2 * (applyOp s o).f ≤ (applyOp s o).totalCommitMsg := by
          rw [applyOp_f, opCommEmitted_total he]
        simp [runCommEmitCount, he, runCommEmitCount_zero_of_high rest _ hhigh]
      · simp only [Bool.not_eq_true] at he
        simp [runCommEmitCount, he, ih _]

theorem prepEmitCount_zero_of_high :
    ∀ (msgs : List VoteMsg) (s : State),
      2 * s.f ≤ s.totalPrepareMsg → prepEmitCount s msgs = 0 := by
  intro msgs
  induction msgs with
  | nil => intro s _; rfl
  | cons m rest ih =>
      intro s h
      have h0 : prepEmitted s m = false := prepEmitted_false_of_high h
      have h1 : 2 * (prepApply s m).f ≤ (prepApply s m).totalPrepareMsg := by
        rw [prepApply_f]
        refine le_trans h ?_
        rcases prepApply_total s m with ht | ht <;> omega
      simp [prepEmitCount, h0, ih _ h1]

theorem prepEmitCount_le_one :
    ∀ (msgs : List VoteMsg) (s : State), prepEmitCount s msgs ≤ 1 := by
  intro msgs
  induction msgs with
  | nil => intro s; exact Nat.zero_le 1
  | cons m rest ih =>
      intro s
      by_cases he : prepEmitted s m = true
      · have hhigh : 2 * (prepApply s m).f ≤ (prepApply s m).totalPrepareMsg := by
          rw [prepApply_f, (prepEmitted_total he).1]
        simp [prepEmitCount, he, prepEmitCount_zero_of_high rest _ hhigh]
      · simp only [Bool.not_eq_true] at he
        simp [prepEmitCount, he, ih _]

theorem stageInv_step (s : State) (o : ConsOp) (h : stageInv s) :
    stageInv (applyOp s o) ∧
      stageRank s.currentStage ≤ stageRank (applyOp s o).currentStage := by
  cases o with
  | prep m =>
      simp only [applyOp]
      unfold prepApply State.Prepare
      cases hv : s.verifyMsg m.viewID m.sequenceID m.digest with
      | some e => exact ⟨h, le_refl _⟩
      | none =>
          dsimp only []
          split
          · constructor
            · intro hst
              dsimp only [] at hst ⊢
              have := h hst
              omega
            · exact le_refl _
          · rename_i hgt
            simp only [not_lt] at hgt
            split
            · rename_i hp
              constructor
              · intro _
                dsimp only []
                unfold State.prepared at hp
                simp only [Bool.and_eq_true, decide_eq_true_eq] at hp
                exact hp.2
              · cases hcs : s.currentStage with
                | Idle => simp [stageRank]
                | PrePrepared => simp [stageRank]
                | Prepared => simp [stageRank]
                | Committed =>
                    exfalso
                    have := h (Or.inr hcs)
                    omega
            · constructor
              · intro hst
                dsimp only [] at hst ⊢
                have := h hst
                omega
              · exact le_refl _
  | comm m =>
      simp only [applyOp]
      unfold commApply State.Commit
      by_cases hp : s.prepared
      · simp only [hp, Bool.not_true, Bool.false_eq_true, if_false]
        cases hv : s.verifyMsg m.viewID m.sequenceID m.digest with
        | some e => exact ⟨h, le_refl _⟩
        | none =>
            dsimp only []
            split
            · constructor
              · intro hst
                dsimp only [] at hst ⊢
                exact h hst
              · exact le_refl _
            · split
              · rename_i hc
                split
                · constructor
                  · intro _
                    dsimp only []
                    unfold State.committed State.prepared at hc
                    simp only [Bool.and_eq_true, decide_eq_true_eq] at hc
                    exact hc.1.2
                  · cases s.currentStage <;> simp [stageRank]
                · constructor
                  · intro hst
                    dsimp only [] at hst ⊢
                    exact h hst
                  · exact le_refl _
              · constructor
                · intro hst
                  dsimp only [] at hst ⊢
                  exact h hst
                · exact le_refl _
      · simp only [Bool.not_eq_true] at hp
        simp only [hp, Bool.not_false, if_true]
        exact ⟨h, le_refl _⟩

theorem runOps_stage_mono :
    ∀ (ops : List ConsOp) (s : State), stageInv s →
      stageRank s.currentStage ≤ stageRank (runOps s ops).currentStage := by
  intro ops
  induction ops with
  | nil => intro s _; exact le_refl _
  | cons o rest ih =>
      intro s h
      have step := stageInv_step s o h
      exact le_trans step.2 (ih _ step.1)

theorem alistGet_mem {α β : Type} [DecidableEq α] :
    ∀ {l : List (α × β)} {k : α} {v : β}, alistGet l k = some v → (k, v) ∈ l := by
  intro l
  induction l with
  | nil => intro k v h; simp [alistGet] at h
  | cons p t ih =>
      intro k v h
      obtain ⟨a, b⟩ := p
      unfold alistGet at h
      by_cases hk : a = k
      · subst hk
        rw [if_pos rfl] at h
        injection h with hbv
        subst hbv
        exact List.mem_cons_self _ _
      · rw [if_neg hk] at h
        exact List.mem_cons_of_mem _ (ih h)

theorem mem_alistErase {α β : Type} [DecidableEq α] :
    ∀ {l : List (α × β)} {k : α} {p : α × β}, p ∈ alistErase l k → p ∈ l := by
  intro l
  induction l with
  | nil => intro k p h; simp [alistErase] at h
  | cons q t ih =>
      intro k p h
      obtain ⟨a, b⟩ := q
      unfold alistErase at h
      by_cases hk : a = k
      · rw [if_pos hk] at h
        exact List.mem_cons_of_mem _ h
      · rw [if_neg hk] at h
        rcases List.mem_cons.mp h with he | hm
        · exact he ▸ List.mem_cons_self _ _
        · exact List.mem_cons_of_mem _ (ih hm)

theorem mem_alistInsert {α β : Type} [DecidableEq α] :
    ∀ {l : List (α × β)} {k : α} {v : β} {p : α × β},
      p ∈ alistInsert l k v → p = (k, v) ∨ p ∈ l := by
  intro l
  induction l with
  | nil =>
      intro k v p h
      simp [alistInsert] at h
      exact Or.inl h
  | cons q t ih =>
      intro k v p h
      obtain ⟨a, b⟩ := q
      unfold alistInsert at h
      by_cases hk : a = k
      · rw [if_pos hk] at h
        rcases List.mem_cons.mp h with he | hm
        · exact Or.inl he
        · exact Or.inr (List.mem_cons_of_mem _ hm)
      · rw [if_neg hk] at h
        rcases List.mem_cons.mp h with he | hm
        · exact Or.inr (he ▸ List.mem_cons_self _ _)
        · rcases ih hm with he2 | hm2
          · exact Or.inl he2
          · exact Or.inr (List.mem_cons_of_mem _ hm2)

theorem getD_append_lt {α : Type} (l l2 : List α) (d : α) :
    ∀ i, i < l.length → (l ++ l2).getD i d = l.getD i d := by
  induction l with
  | nil => intro i h; simp at h
  | cons a t ih =>
      intro i h
      cases i with
      | zero => rfl
      | succ j =>
          simp only [List.cons_append, List.getD_cons_succ]
          exact ih j (by simpa using h)

theorem getD_append_len {α : Type} (l : List α) (r : α) (d : α) :
    (l ++ [r]).getD l.length d = r := by
  induction l with
  | nil => rfl
  | cons a t ih => simp only [List.cons_append, List.length_cons, List.getD_cons_succ, ih]

theorem lastSequenceID_ordered {committedLog : List RequestMsg}
    (h : orderedLog committedLog) :
    lastSequenceID committedLog = (committedLog.length : Int) := by
  unfold lastSequenceID
  by_cases hl : 0 < committedLog.length
  · rw [if_pos hl, h (committedLog.length - 1) (by omega)]
    omega
  · rw [if_neg hl]
    have h0 : committedLog.length = 0 := by omega
    rw [h0]
    rfl

theorem ordered_append {committedLog : List RequestMsg} {r : RequestMsg}
    (h : orderedLog committedLog)
    (hr : r.sequenceID = (committedLog.length : Int) + 1) :
    orderedLog (committedLog ++ [r]) := by
  intro i hi
  simp only [List.length_append, List.length_cons, List.length_nil] at hi
  by_cases hlt : i < committedLog.length
  · rw [getD_append_lt _ _ _ _ hlt]
    exact h i hlt
  · have hieq : i = committedLog.length := by omega
    subst hieq
    rw [getD_append_len, hr]

theorem executeLoop_preserves :
    ∀ (fuel : Nat) (committedLog : List RequestMsg)
      (pairs : List (Int × MsgPair)),
      orderedLog committedLog → pairsKeyed pairs →
      orderedLog (executeLoop fuel committedLog pairs).1 ∧
        pairsKeyed (executeLoop fuel committedLog pairs).2 := by
  intro fuel
  induction fuel with
  | zero => intro committedLog pairs h1 h2; exact ⟨h1, h2⟩
  | succ n ih =>
      intro committedLog pairs h1 h2
      unfold executeLoop
      cases hg : alistGet pairs (lastSequenceID committedLog + 1) with
      | none => exact ⟨h1, h2⟩
      | some p =>
          have hmem := alistGet_mem hg
          have hkey : p.committedMsg.sequenceID = lastSequenceID committedLog + 1 :=
            h2 _ hmem
          have hord : orderedLog (committedLog ++ [p.committedMsg]) := by
            apply ordered_append h1
            rw [hkey, lastSequenceID_ordered h1]
          have hkeyed :
              pairsKeyed (alistErase pairs (lastSequenceID committedLog + 1)) := by
            intro q hq
            exact h2 q (mem_alistErase hq)
          exact ih _ _ hord hkeyed

theorem Commit_error_of_verify {s : State} {m : VoteMsg} {e : String}
    (hp : s.prepared = true)
    (hv : s.verifyMsg m.viewID m.sequenceID m.digest = some e) :
    s.Commit m = (s, Except.error ("commit message is corrupted: " ++ e)) := by
  simp [State.Commit, hp, hv]

theorem Commit_ok_of_verify {s : State} {m : VoteMsg}
    (hp : s.prepared = true)
    (hv : s.verifyMsg m.viewID m.sequenceID m.digest = none) :
    ∃ r, (s.Commit m).2 = Except.ok r := by
  simp only [State.Commit, hp, Bool.not_true, Bool.false_eq_true, if_false, hv]
  split
  · exact ⟨none, rfl⟩
  · split
    · split
      · exact ⟨_, rfl⟩
      · exact ⟨none, rfl⟩
    · exact ⟨none, rfl⟩

theorem Prepare_record_of_verify {s : State} {m : VoteMsg}
    (hv : s.verifyMsg m.viewID m.sequenceID m.digest = none) :
    (prepApply s m).prepareMsgs = alistInsert s.prepareMsgs m.nodeID (some m) ∧
      (prepApply s m).totalPrepareMsg = s.totalPrepareMsg + 1 := by
  unfold prepApply State.Prepare
  rw [hv]
  dsimp only []
  split
  · exact ⟨rfl, rfl⟩
  · split
    · exact ⟨rfl, rfl⟩
    · exact ⟨rfl, rfl⟩

/-! Claim theorems. -/

/-- Claim C1, counterexample: `Commit` transitions the instance to
`COMMITTED` and returns the reply paired with the committed request while
the instance holds only `2 = 2f` COMMIT votes — fewer than the `2f + 1`
the claim requires (`2f + 1 = 3` here), and none of them the replica's own,
refuting the claim that the transition fires only with `2f+1` votes held
including the replica's own. -/
theorem claim_C1_counterexample :
    (stateOneCommit.Commit voteCommB2).2 = Except.ok (some (replyX, reqX)) ∧
    (stateOneCommit.Commit voteCommB2).1.currentStage = Stage.Committed ∧
    (stateOneCommit.Commit voteCommB2).1.commitMsgs.length = 2 ∧
    (stateOneCommit.Commit voteCommB2).1.totalCommitMsg = 2 ∧
    2 * stateOneCommit.f + 1 = 3 := by decide

/-- Claim C1, amended: `Commit` transitions the instance to `COMMITTED` and
returns the reply paired with the committed request only when the instance
is prepared and the newly incremented COMMIT total equals exactly `2f`
(votes from other replicas; the replica's own commit is never stored in the
instance). -/
theorem claim_C1_amended (s : State) (m : VoteMsg) (pr : ReplyMsg × RequestMsg)
    (h : (s.Commit m).2 = Except.ok (some pr)) :
    s.prepared = true ∧
      (s.Commit m).1.currentStage = Stage.Committed ∧
      (s.Commit m).1.totalCommitMsg = 2 * s.f ∧
      (s.Commit m).1.totalCommitMsg = s.totalCommitMsg + 1 ∧
      s.reqMsg = some pr.2 := by
  obtain ⟨h1, h2, h3, h4, h5⟩ := Commit_emit_char h
  exact ⟨h1, h4, h2, h3, h5⟩

/-- Claim C1, witness: the amended theorem applied at a concrete prepared
state with one prior COMMIT vote, where the second vote fires the
transition. -/
theorem claim_C1_witness :
    stateOneCommit.prepared = true ∧
      (stateOneCommit.Commit voteCommB2).1.currentStage = Stage.Committed ∧
      (stateOneCommit.Commit voteCommB2).1.totalCommitMsg = 2 * stateOneCommit.f ∧
      (stateOneCommit.Commit voteCommB2).1.totalCommitMsg =
        stateOneCommit.totalCommitMsg + 1 ∧
      stateOneCommit.reqMsg = some (replyX, reqX).2 :=
  claim_C1_amended stateOneCommit voteCommB2 (replyX, reqX) (by decide)

/-- Claim C2, counterexample: a duplicate PREPARE vote from the same nodeID
(`b1`) replaces the map entry (the map keeps 2 entries) but increments the
counted total from 2 to 3, refuting the claim that a duplicate vote does not
increment the counted total. -/
theorem claim_C2_counterexample :
    (prepApply stateEx1 votePrepB1).totalPrepareMsg = 2 ∧
    (prepApply (prepApply stateEx1 votePrepB1) votePrepB1).totalPrepareMsg = 3 ∧
    (prepApply (prepApply stateEx1 votePrepB1) votePrepB1).prepareMsgs.length = 2 := by
  decide

/-- Claim C2, amended: a duplicate vote replaces the prior map entry but
does increment the counted total; nevertheless over every sequence of
`Prepare` calls (duplicates included) the PRE_PREPARED→PREPARED transition
fires and the COMMIT message is emitted at most once, because the total only
grows and the emission requires the incremented total to equal exactly
`2f`. -/
theorem claim_C2_amended (s : State) (msgs : List VoteMsg) (m : VoteMsg) :
    prepEmitCount s msgs ≤ 1 ∧
      (s.verifyMsg m.viewID m.sequenceID m.digest = none →
        (prepApply s m).prepareMsgs =
            alistInsert s.prepareMsgs m.nodeID (some m) ∧
          (prepApply s m).totalPrepareMsg = s.totalPrepareMsg + 1) :=
  ⟨prepEmitCount_le_one msgs s, fun hv => Prepare_record_of_verify hv⟩

/-- Claim C2, witness: the amended theorem applied at the concrete
pre-prepared state with a duplicated vote sequence, discharging the
verification hypothesis. -/
theorem claim_C2_witness :
    prepEmitCount stateEx1 [votePrepB1, votePrepB1] ≤ 1 ∧
      (prepApply stateEx1 votePrepB1).prepareMsgs =
          alistInsert stateEx1.prepareMsgs votePrepB1.nodeID (some votePrepB1) ∧
        (prepApply stateEx1 votePrepB1).totalPrepareMsg =
          stateEx1.totalPrepareMsg + 1 :=
  ⟨(claim_C2_amended stateEx1 [votePrepB1, votePrepB1] votePrepB1).1,
   (claim_C2_amended stateEx1 [votePrepB1, votePrepB1] votePrepB1).2 (by decide)⟩

/-- Claim C3 (confirmed): the executor preserves, across every processed
`(reply, request)` pair, the invariant that `committedLog[i].sequenceID =
i + 1` for every index `i` — requests are appended in strictly monotone
sequence order with no gaps, at most once per sequence number, starting at
`lastExecuted + 1` — together with the buffer invariant that every buffered
pair is keyed by its own sequence number. -/
theorem claim_C3 (committedLog : List RequestMsg)
    (pairs : List (Int × MsgPair)) (msgPair : MsgPair)
    (h1 : orderedLog committedLog) (h2 : pairsKeyed pairs) :
    orderedLog (executeMsgStep committedLog pairs msgPair).1 ∧
      pairsKeyed (executeMsgStep committedLog pairs msgPair).2 := by
  unfold executeMsgStep
  apply executeLoop_preserves
  · exact h1
  · intro q hq
    rcases mem_alistInsert hq with he | hm
    · rw [he]
    · exact h2 q hm

/-- Claim C3, witness: the theorem applied to the empty executor state and
one concrete pair. -/
theorem claim_C3_witness :
    orderedLog (executeMsgStep [] [] mpX).1 ∧
      pairsKeyed (executeMsgStep [] [] mpX).2 :=
  claim_C3 [] [] mpX
    (by intro i hi; simp at hi)
    (by intro p hp; simp at hp)

/-- Claim C4, counterexample: on an instance at stage `PREPARED`, a repeated
`PrePrepare` call with matching view, sequence and digest succeeds and moves
the stage back to `PRE_PREPARED`, refuting the claim that no operation call
ever moves the stage from `PREPARED` back to a lower stage. -/
theorem claim_C4_counterexample :
    statePrepared.currentStage = Stage.Prepared ∧
    (statePrepared.PrePrepare ppX).2 = Except.ok prepVoteOutX ∧
    (statePrepared.PrePrepare ppX).1.currentStage = Stage.PrePrepared := by decide

/-- Claim C4, amended: the stage is monotone under `Prepare` and `Commit` —
from any state satisfying the stage/total consistency invariant (which all
reachable states satisfy), no sequence of `Prepare`/`Commit` calls lowers
the stage; `PrePrepare` and `StartConsensus`, however, set the stage to
`PRE_PREPARED` unconditionally on success, so their re-delivery can regress
a `PREPARED` or `COMMITTED` instance. -/
theorem claim_C4_amended (s : State) (ops : List ConsOp) (h : stageInv s) :
    stageRank s.currentStage ≤ stageRank (runOps s ops).currentStage :=
  runOps_stage_mono ops s h

/-- Claim C4, witness: the amended theorem applied at a prepared state under
a concrete commit-then-duplicate-prepare call sequence. -/
theorem claim_C4_witness :
    stageRank statePrepared.currentStage ≤
      stageRank (runOps statePrepared
        [ConsOp.comm voteCommB1, ConsOp.prep votePrepB1]).currentStage :=
  claim_C4_amended statePrepared [ConsOp.comm voteCommB1, ConsOp.prep votePrepB1]
    (by intro hst; decide)

/-- Claim C5 (code bug): after a first PRE-PREPARE for `(v, n) = (0, 1)`
carrying `reqX` is accepted, a second PRE-PREPARE for the same `(v, n)`
carrying the conflicting request `reqY` with a different digest is accepted
(it returns a PREPARE vote) and replaces the stored request — `verifyMsg`
compares the incoming digest against the digest of the request the incoming
message itself just stored, so the equivocation check never fires. -/
theorem claim_C5_codebug :
    ppY.digest ≠ ppX.digest ∧
    (stateEx0.PrePrepare ppX).2 = Except.ok prepVoteOutX ∧
    ((stateEx0.PrePrepare ppX).1.PrePrepare ppY).2 = Except.ok prepVoteOutY ∧
    ((stateEx0.PrePrepare ppX).1.PrePrepare ppY).1.reqMsg = some reqY := by decide

/-- Claim C6, counterexample: `Checkpointchk` reports the checkpoint stable
although the three logged CHECKPOINT messages carry three pairwise different
digests, refuting the claim that stability requires the digests to match. -/
theorem claim_C6_counterexample :
    nodeMismatch.Checkpointchk 5 = true ∧
    digestsMatch ((alistGet nodeMismatch.checkPointMsgsLog 5).getD []) = false := by
  decide

/-- Claim C6, amended: the checkpoint for sequence `s` is reported stable
exactly when an instance for `s` exists, the checkpoint log for `s` holds at
least `2F + 1` messages, and the local replica's own CHECKPOINT is among
them; the digests of the logged messages are never compared. -/
theorem claim_C6_amended (node : Node) (s : Int) :
    node.Checkpointchk s = true ↔
      ∃ st, alistGet node.states s = some st ∧
        2 * st.F + 1 ≤ ((alistGet node.checkPointMsgsLog s).getD []).length ∧
        (alistGet ((alistGet node.checkPointMsgsLog s).getD [])
          node.myNodeID).isSome = true := by
  unfold Node.Checkpointchk
  cases hg : alistGet node.states s with
  | none => simp
  | some st => simp

/-- Claim C6, witness: the amended characterization instantiated at the
concrete node with a full checkpoint log. -/
theorem claim_C6_witness :
    nodeMismatch.Checkpointchk 5 = true ↔
      ∃ st, alistGet nodeMismatch.states 5 = some st ∧
        2 * st.F + 1 ≤ ((alistGet nodeMismatch.checkPointMsgsLog 5).getD []).length ∧
        (alistGet ((alistGet nodeMismatch.checkPointMsgsLog 5).getD [])
          nodeMismatch.myNodeID).isSome = true :=
  claim_C6_amended nodeMismatch 5

/-- Claim C7, counterexample: a checkpoint at sequence `S = 10` becomes
stable (the stabilization branch fires), yet the stable checkpoint variable
is set to `5 = 0 + periodCheckPoint`, not to `S`, and the instance registry
still contains the key `10 ≤ S` afterwards — refuting both the claim's
`stableCheckpoint := S` and its claim that no key `≤ S` survives. -/
theorem claim_C7_counterexample :
    (nodeTen.recordCkpt ckTen).ckptFires ckTen = true ∧
    ckTen.sequenceID = 10 ∧
    (nodeTen.CheckPoint ckTen).stableCheckPoint = 5 ∧
    10 ∈ alistKeys (nodeTen.CheckPoint ckTen).states := by decide

/-- Claim C7, amended: when the stabilization branch fires, the stable
checkpoint variable is raised by exactly `periodCheckPoint` (it equals the
triggering sequence number only when checkpoints stabilize in order), and
afterwards the instance registry and the checkpoint message log contain no
key strictly below the new stable checkpoint. -/
theorem claim_C7_amended (node : Node) (msg : CheckPointMsg)
    (h : (node.recordCkpt msg).ckptFires msg = true) :
    (node.CheckPoint msg).stableCheckPoint =
        node.stableCheckPoint + periodCheckPoint ∧
      (∀ k ∈ alistKeys (node.CheckPoint msg).states,
        (node.CheckPoint msg).stableCheckPoint ≤ k) ∧
      (∀ k ∈ alistKeys (node.CheckPoint msg).checkPointMsgsLog,
        (node.CheckPoint msg).stableCheckPoint ≤ k) := by
  unfold Node.CheckPoint
  rw [if_pos h]
  refine ⟨rfl, ?_, ?_⟩
  · intro k hk
    unfold alistKeys at hk
    simp only [List.mem_map] at hk
    obtain ⟨p, hp, hpk⟩ := hk
    rw [List.mem_filter] at hp
    have hcond := hp.2
    simp only [Bool.not_eq_true', decide_eq_false_iff_not, not_lt] at hcond
    rw [← hpk]
    exact hcond
  · intro k hk
    unfold alistKeys at hk
    simp only [List.mem_map] at hk
    obtain ⟨p, hp, hpk⟩ := hk
    rw [List.mem_filter] at hp
    have hcond := hp.2
    simp only [Bool.not_eq_true', decide_eq_false_iff_not, not_lt] at hcond
    rw [← hpk]
    exact hcond

/-- Claim C7, witness: the amended theorem applied at a node whose own
checkpoint for sequence 5 fires the stabilization branch. -/
theorem claim_C7_witness :
    (nodeFive.CheckPoint ckFive).stableCheckPoint =
        nodeFive.stableCheckPoint + periodCheckPoint ∧
      (∀ k ∈ alistKeys (nodeFive.CheckPoint ckFive).states,
        (nodeFive.CheckPoint ckFive).stableCheckPoint ≤ k) ∧
      (∀ k ∈ alistKeys (nodeFive.CheckPoint ckFive).checkPointMsgsLog,
        (nodeFive.CheckPoint ckFive).stableCheckPoint ≤ k) :=
  claim_C7_amended nodeFive ckFive (by decide)

/-- Claim C8, counterexample: a `PrePrepare` call that fails verification
with a Corrupt error (view mismatch) nevertheless changes the instance
state — the carried request and sequence number are stored before
verification — refuting the claim that a Corrupt failure leaves the state
unchanged. -/
theorem claim_C8_counterexample :
    (stateEx1.PrePrepare ppYBadView).2 =
      Except.error "pre-prepare message is corrupted: view mismatch" ∧
    (stateEx1.PrePrepare ppYBadView).1 ≠ stateEx1 ∧
    (stateEx1.PrePrepare ppYBadView).1.reqMsg = some reqY := by decide

/-- Claim C8, amended: `Prepare` and `Commit` leave the instance state
entirely unchanged whenever they fail with a Corrupt error; `PrePrepare`,
however, stores the carried request and sequence number before verifying,
so a failing `PrePrepare` call overwrites them. -/
theorem claim_C8_amended (s : State) (m : VoteMsg) :
    (∀ e, (s.Prepare m).2 = Except.error e → (s.Prepare m).1 = s) ∧
      (∀ e, (s.Commit m).2 = Except.error e → (s.Commit m).1 = s) := by
  constructor
  · intro e h
    cases hv : s.verifyMsg m.viewID m.sequenceID m.digest with
    | some e2 => rw [Prepare_error_of_verify hv]
    | none =>
        obtain ⟨r, hr⟩ := Prepare_ok_of_verify hv
        rw [hr] at h
        exact absurd h (by simp)
  · intro e h
    by_cases hp : s.prepared
    · cases hv : s.verifyMsg m.viewID m.sequenceID m.digest with
      | some e2 => rw [Commit_error_of_verify hp hv]
      | none =>
          obtain ⟨r, hr⟩ := Commit_ok_of_verify hp hv
          rw [hr] at h
          exact absurd h (by simp)
    · simp only [Bool.not_eq_true] at hp
      rw [Commit_error_of_unprepared hp]

/-- Claim C8, witness: the amended theorem applied at a prepared state and a
bad-view vote, for which both `Prepare` and `Commit` fail with Corrupt
errors and leave the state unchanged. -/
theorem claim_C8_witness :
    (statePrepared.Prepare voteBadView).1 = statePrepared ∧
      (statePrepared.Commit voteBadView).1 = statePrepared :=
  ⟨(claim_C8_amended statePrepared voteBadView).1
      "prepare message is corrupted: view mismatch" (by decide),
   (claim_C8_amended statePrepared voteBadView).2
      "commit message is corrupted: view mismatch" (by decide)⟩

/-- Claim C9, counterexample: the router drops the replica's own COMMIT vote
(`routeMsg` returns `none` for a vote whose nodeID equals the local node's),
refuting the claim that the replica's own COMMIT votes are delivered back to
itself. -/
theorem claim_C9_counterexample :
    ownCommitVote.msgType = MsgType.CommitMsg ∧
    ownCommitVote.nodeID = nodeRouter.myNodeID ∧
    nodeRouter.routeMsg (InMsg.vote ownCommitVote) = none := by decide

/-- Claim C9, amended: the router suppresses every vote message carrying the
replica's own nodeID — PREPARE and COMMIT alike — and delivers requests,
replies and checkpoint messages unconditionally (the instance's commit
threshold of `2f` stored votes compensates for the own COMMIT never being
re-delivered). -/
theorem claim_C9_amended (node : Node) (v : VoteMsg) (c : CheckPointMsg)
    (r : ReplyMsg) (q : RequestMsg) :
    node.routeMsg (InMsg.vote v) =
        (if node.myNodeID = v.nodeID then none else some (InMsg.vote v)) ∧
      node.routeMsg (InMsg.checkpoint c) = some (InMsg.checkpoint c) ∧
      node.routeMsg (InMsg.reply r) = some (InMsg.reply r) ∧
      node.routeMsg (InMsg.request q) = some (InMsg.request q) := by
  refine ⟨?_, rfl, rfl, rfl⟩
  by_cases h : node.myNodeID = v.nodeID <;> simp [Node.routeMsg, h]

/-- Claim C9, witness: the amended routing behavior instantiated at the
concrete router node and its own COMMIT vote. -/
theorem claim_C9_witness :
    nodeRouter.routeMsg (InMsg.vote ownCommitVote) =
        (if nodeRouter.myNodeID = ownCommitVote.nodeID then none
          else some (InMsg.vote ownCommitVote)) ∧
      nodeRouter.routeMsg (InMsg.checkpoint ckFive) = some (InMsg.checkpoint ckFive) ∧
      nodeRouter.routeMsg (InMsg.reply replyX) = some (InMsg.reply replyX) ∧
      nodeRouter.routeMsg (InMsg.request reqX) = some (InMsg.request reqX) :=
  claim_C9_amended nodeRouter ownCommitVote ckFive replyX reqX

/-- Claim C10 (confirmed): over every sequence of `Prepare` and `Commit`
calls, the COMMIT message is emitted on at most one call and the reply is
emitted on at most one call; each emission fires exactly on the call whose
incremented vote total equals `2f`, and since the totals never decrease, a
second emission cannot occur. -/
theorem claim_C10 (s : State) (ops : List ConsOp) :
    runPrepEmitCount s ops ≤ 1 ∧
      runCommEmitCount s ops ≤ 1 ∧
      (∀ (t : State) (m : VoteMsg), prepEmitted t m = true →
        (prepApply t m).totalPrepareMsg = 2 * t.f) ∧
      (∀ (t : State) (m : VoteMsg), commEmitted t m = true →
        (commApply t m).totalCommitMsg = 2 * t.f) :=
  ⟨runPrepEmitCount_le_one ops s, runCommEmitCount_le_one ops s,
   fun _ _ h => (prepEmitted_total h).1,
   fun _ _ h => (commEmitted_total h).1⟩

/-- Claim C10, witness: the theorem applied at the concrete pre-prepared
state over a duplicated vote sequence, with both emission hypotheses
discharged at states that actually emit. -/
theorem claim_C10_witness :
    runPrepEmitCount stateEx1
        [ConsOp.prep votePrepB1, ConsOp.prep votePrepB1,
          ConsOp.comm voteCommB1] ≤ 1 ∧
      runCommEmitCount stateEx1
        [ConsOp.prep votePrepB1, ConsOp.prep votePrepB1,
          ConsOp.comm voteCommB1] ≤ 1 ∧
      (prepApply stateEx1 votePrepB1).totalPrepareMsg = 2 * stateEx1.f ∧
      (commApply stateOneCommit voteCommB2).totalCommitMsg =
        2 * stateOneCommit.f :=
  ⟨(claim_C10 stateEx1
      [ConsOp.prep votePrepB1, ConsOp.prep votePrepB1, ConsOp.comm voteCommB1]).1,
   (claim_C10 stateEx1
      [ConsOp.prep votePrepB1, ConsOp.prep votePrepB1, ConsOp.comm voteCommB1]).2.1,
   (claim_C10 stateEx1
      [ConsOp.prep votePrepB1, ConsOp.prep votePrepB1, ConsOp.comm voteCommB1]).2.2.1
      stateEx1 votePrepB1 (by decide),
   (claim_C10 stateEx1
      [ConsOp.prep votePrepB1, ConsOp.prep votePrepB1, ConsOp.comm voteCommB1]).2.2.2
      stateOneCommit voteCommB2 (by decide)⟩

end PBFT
